import Mathlib

/-!
# Providers: the `PlaneVertex` record

A verification development for `Providers/Resources/PlaneVertex.h`:

```c
struct PlaneVertex {
    simd_float3 position;
    simd_float3 normal;
};
```

The header declares one aggregate and nothing else.  Three views of it are
embedded here:

* the *value* view: a record of two three-lane vectors (`simd_float3`,
  `PlaneVertex`), with construction and field access;
* the *declaration* view: the ordered field list of the aggregate
  (`PlaneVertex.decl`) and the storage the C layout rules give it
  (`structLayout`, `PlaneVertex.layout`);
* the *storage* view: a record as the bytes of its object, with construction
  and member access as writes and reads at the member offsets
  (`PlaneVertex.init`, `PlaneVertex.readPosition`, `PlaneVertex.readNormal`).
-/

/-! ## Value view -/

/-- Three-lane vector value of the platform type `simd_float3`, over a carrier `F`
of lane values (the `float` values of the source). -/
structure simd_float3 (F : Type) where
  x : F
  y : F
  z : F

/-- Value of `struct PlaneVertex`: the two members in declaration order. -/
structure PlaneVertex (F : Type) where
  position : simd_float3 F
  normal : simd_float3 F

/-- The scalar lanes of a record, numbered in declaration order. -/
def PlaneVertex.component {F : Type} (v : PlaneVertex F) : Fin 6 → F
  | 0 => v.position.x
  | 1 => v.position.y
  | 2 => v.position.z
  | 3 => v.normal.x
  | 4 => v.normal.y
  | 5 => v.normal.z

/-- The record whose six lanes are the given ones. -/
def PlaneVertex.ofComponents {F : Type} (f : Fin 6 → F) : PlaneVertex F :=
  ⟨⟨f 0, f 1, f 2⟩, ⟨f 3, f 4, f 5⟩⟩

/-! ## Declaration view -/

/-- The C object types needed to describe a member of an aggregate. -/
inductive CType where
  /-- The scalar `float`. -/
  | float : CType
  /-- The platform typedef `simd_float3`, a vector of three `float` lanes. -/
  | simd_float3 : CType
  /-- A pointer to an object. -/
  | pointer : CType → CType
  /-- A flexible (variable-length) array as last member. -/
  | flexibleArray : CType → CType
  deriving DecidableEq, Repr

/-- Number of `float` scalars stored inline in an object of the type. -/
def CType.scalarCount : CType → Nat
  | .float => 1
  | .simd_float3 => 3
  | .pointer _ => 0
  | .flexibleArray _ => 0

/-- Whether the type is a pointer. -/
def CType.isPointer : CType → Bool
  | .pointer _ => true
  | _ => false

/-- Whether the type has no fixed length. -/
def CType.isVariableLength : CType → Bool
  | .flexibleArray _ => true
  | _ => false

/-- One member of an aggregate. -/
structure Member where
  name : String
  type : CType
  deriving DecidableEq, Repr

/-- An aggregate declaration: its tag and its members in order. -/
structure StructDecl where
  tag : String
  fields : List Member
  deriving DecidableEq, Repr

/-- The declaration `struct PlaneVertex { simd_float3 position; simd_float3 normal; };`. -/
def PlaneVertex.decl : StructDecl :=
  ⟨"PlaneVertex", [⟨"position", CType.simd_float3⟩, ⟨"normal", CType.simd_float3⟩]⟩

/-! ## Storage layout -/

/-- Size and alignment of an object type, in bytes. -/
structure TypeLayout where
  size : Nat
  align : Nat
  deriving DecidableEq, Repr

/-- The target's storage parameters.  The header does not define `float`,
`simd_float3` or pointers, so their storage is taken as given. -/
structure Platform where
  /-- Value of `sizeof(float)`, also the alignment of `float`. -/
  floatSize : Nat
  /-- Size and alignment of `simd_float3`. -/
  vector3 : TypeLayout
  /-- Size and alignment of a pointer. -/
  pointerSize : Nat
  deriving DecidableEq, Repr

/-- Storage of a member type on a platform. -/
def CType.layout (P : Platform) : CType → TypeLayout
  | .float => ⟨P.floatSize, P.floatSize⟩
  | .simd_float3 => P.vector3
  | .pointer _ => ⟨P.pointerSize, P.pointerSize⟩
  | .flexibleArray t => ⟨0, (t.layout P).align⟩

/-- The least offset not below `off` that is a multiple of `a`. -/
def alignUp (off a : Nat) : Nat := off + (a - off % a) % a

/-- Placement of members one after the other, each at the first offset that
satisfies its alignment: returns the member offsets, the end of the last
member and the largest alignment seen. -/
def layoutFrom (endOff al : Nat) : List TypeLayout → List Nat × Nat × Nat
  | [] => ([], endOff, al)
  | f :: fs =>
    let o := alignUp endOff f.align
    let r := layoutFrom (o + f.size) (max al f.align) fs
    (o :: r.1, r.2.1, r.2.2)

/-- Storage of an aggregate: member offsets, total size and alignment. -/
structure StructLayout where
  offsets : List Nat
  size : Nat
  align : Nat
  deriving DecidableEq, Repr

/-- The C layout of an aggregate with no packing attribute: members in
declaration order, the size rounded up to the aggregate's alignment. -/
def structLayout (fields : List TypeLayout) : StructLayout :=
  let r := layoutFrom 0 1 fields
  ⟨r.1, alignUp r.2.1 r.2.2, r.2.2⟩

/-- Storage of `struct PlaneVertex` on a platform. -/
def PlaneVertex.layout (P : Platform) : StructLayout :=
  structLayout (PlaneVertex.decl.fields.map (fun f => f.type.layout P))

/-- Sizes of the members of an aggregate, in declaration order. -/
def StructDecl.memberSizes (P : Platform) (d : StructDecl) : List Nat :=
  d.fields.map (fun f => (f.type.layout P).size)

/-- Value of `sizeof(struct PlaneVertex)`. -/
def PlaneVertex.sizeof (P : Platform) : Nat := (PlaneVertex.layout P).size

/-- Value of `offsetof(struct PlaneVertex, position)`. -/
def PlaneVertex.positionOffset (P : Platform) : Nat := (PlaneVertex.layout P).offsets.getD 0 0

/-- Value of `offsetof(struct PlaneVertex, normal)`. -/
def PlaneVertex.normalOffset (P : Platform) : Nat := (PlaneVertex.layout P).offsets.getD 1 0

/-- Byte offset of element `i` in an array of `struct PlaneVertex`. -/
def PlaneVertex.elementOffset (P : Platform) (i : Nat) : Nat := i * PlaneVertex.sizeof P

/-- Byte offset, inside a record, of lane `j` of the member at offset `base`:
the lanes of a vector are consecutive scalars from the start of the vector. -/
def laneOffset (P : Platform) (base j : Nat) : Nat := base + j * P.floatSize

/-- The platform of the source: `simd_float3` is declared by the platform's
`<simd/vector_types.h>`, whose vectors of three lanes have the size and the
alignment of the four-lane vector, that is four scalars of size `c`. -/
def simdPlatform (c : Nat) : Platform :=
  ⟨c, ⟨4 * c, 4 * c⟩, 8⟩

/-! ## The header and the objects it declares -/

/-- One top-level item of a C header. -/
inductive HeaderItem where
  /-- An object-like `#define` with an empty body (an include guard). -/
  | guardDefine : String → HeaderItem
  /-- A `struct` declaration. -/
  | structDecl : StructDecl → HeaderItem
  /-- A function declaration or definition, by name. -/
  | functionDecl : String → HeaderItem
  deriving DecidableEq, Repr

/-- Whether a header item is a function. -/
def HeaderItem.isFunction : HeaderItem → Bool
  | .functionDecl _ => true
  | _ => false

/-- Whether a header item declares an aggregate. -/
def HeaderItem.isStruct : HeaderItem → Bool
  | .structDecl _ => true
  | _ => false

/-- The items of `PlaneVertex.h` between `#ifndef PlaneVertex_h` and `#endif`:
the guard definition and the declaration of the aggregate. -/
def PlaneVertex.header : List HeaderItem :=
  [HeaderItem.guardDefine "PlaneVertex_h", HeaderItem.structDecl PlaneVertex.decl]

/-- One byte of storage. -/
abbrev Byte := Fin 256

/-- The bytes of storage, addressed from the start of the object. -/
abbrev Storage := Nat → Byte

/-- Writing the bytes `bs` at offset `off`; every other byte is kept. -/
def storeBytes (m : Storage) (off : Nat) (bs : List Byte) : Storage :=
  fun a => if off ≤ a ∧ a < off + bs.length then bs.getD (a - off) 0 else m a

/-- Reading the `n` bytes at offset `off`. -/
def loadBytes (m : Storage) (off n : Nat) : List Byte :=
  (List.range n).map (fun k => m (off + k))

/-- A vector value whose three lanes are object representations of `float`:
each lane is `sizeof(float)` bytes. -/
def simd_float3.WellFormed (P : Platform) (v : simd_float3 (List Byte)) : Prop :=
  v.x.length = P.floatSize ∧ v.y.length = P.floatSize ∧ v.z.length = P.floatSize

/-- Writing the three lanes of a vector member placed at offset `base`. -/
def storeVec (P : Platform) (m : Storage) (base : Nat) (v : simd_float3 (List Byte)) :
    Storage :=
  storeBytes (storeBytes (storeBytes m (laneOffset P base 0) v.x) (laneOffset P base 1) v.y)
    (laneOffset P base 2) v.z

/-- Reading the three lanes of a vector member placed at offset `base`. -/
def loadVec (P : Platform) (m : Storage) (base : Nat) : simd_float3 (List Byte) :=
  ⟨loadBytes m (laneOffset P base 0) P.floatSize,
   loadBytes m (laneOffset P base 1) P.floatSize,
   loadBytes m (laneOffset P base 2) P.floatSize⟩

/-- Construction `(struct PlaneVertex){ p, n }` in the storage `m`: the two
members are written at their offsets, bytes outside them keep their content. -/
def PlaneVertex.init (P : Platform) (m : Storage) (p n : simd_float3 (List Byte)) : Storage :=
  storeVec P (storeVec P m (PlaneVertex.positionOffset P) p) (PlaneVertex.normalOffset P) n

/-- Member access `v.position` on the record stored in `m`. -/
def PlaneVertex.readPosition (P : Platform) (m : Storage) : simd_float3 (List Byte) :=
  loadVec P m (PlaneVertex.positionOffset P)

/-- Member access `v.normal` on the record stored in `m`. -/
def PlaneVertex.readNormal (P : Platform) (m : Storage) : simd_float3 (List Byte) :=
  loadVec P m (PlaneVertex.normalOffset P)

/-- The value of the record stored in `m`: its two members. -/
def PlaneVertex.load (P : Platform) (m : Storage) : PlaneVertex (List Byte) :=
  ⟨PlaneVertex.readPosition P m, PlaneVertex.readNormal P m⟩

/-! ## Layout lemmas -/

theorem alignUp_of_dvd {off a : Nat} (h : a ∣ off) : alignUp off a = off := by
  have h0 : off % a = 0 := Nat.mod_eq_zero_of_dvd h
  simp [alignUp, h0]

theorem alignUp_zero (a : Nat) : alignUp 0 a = 0 :=
  alignUp_of_dvd (Nat.dvd_zero a)

theorem max_one_dvd_of_dvd {a n : Nat} (h : a ∣ n) : max 1 a ∣ n := by
  rcases Nat.eq_zero_or_pos a with h0 | hpos
  · subst h0
    simp
  · have h1 : max 1 a = a := by omega
    rw [h1]
    exact h

/-- Layout of an aggregate of two members of one type whose size is a multiple
of its alignment: the members are adjacent and the size is their sum. -/
theorem structLayout_pair (v : TypeLayout) (h : v.align ∣ v.size) :
    structLayout [v, v] = ⟨[0, v.size], v.size + v.size, max 1 v.align⟩ := by
  have hsum : max 1 v.align ∣ v.size + v.size :=
    max_one_dvd_of_dvd (Nat.dvd_add h h)
  simp [structLayout, layoutFrom, alignUp_zero, alignUp_of_dvd h, alignUp_of_dvd hsum]

theorem PlaneVertex.layout_eq (P : Platform) (h : P.vector3.align ∣ P.vector3.size) :
    PlaneVertex.layout P =
      ⟨[0, P.vector3.size], P.vector3.size + P.vector3.size, max 1 P.vector3.align⟩ := by
  have := structLayout_pair P.vector3 h
  simpa [PlaneVertex.layout, PlaneVertex.decl, CType.layout] using this

/-! ## Storage lemmas -/

theorem loadBytes_storeBytes_same (m : Storage) (off : Nat) (bs : List Byte) :
    loadBytes (storeBytes m off bs) off bs.length = bs := by
  apply List.ext_getElem
  · simp [loadBytes]
  · intro k h1 h2
    simp [loadBytes, storeBytes, h2, List.getD_eq_getElem]

theorem loadBytes_storeBytes_disjoint (m : Storage) (off1 off2 n : Nat) (bs : List Byte)
    (h : off2 + bs.length ≤ off1 ∨ off1 + n ≤ off2) :
    loadBytes (storeBytes m off2 bs) off1 n = loadBytes m off1 n := by
  apply List.ext_getElem
  · simp [loadBytes]
  · intro k h1 h2
    have hk : k < n := by simpa [loadBytes] using h1
    have hno : ¬ (off2 ≤ off1 + k ∧ off1 + k < off2 + bs.length) := by omega
    simp [loadBytes, storeBytes, hno]

theorem storeBytes_loadBytes (m : Storage) (off n : Nat) :
    storeBytes m off (loadBytes m off n) = m := by
  funext a
  by_cases h : off ≤ a ∧ a < off + n
  · have hlt : a - off < n := by omega
    have hadd : off + (a - off) = a := by omega
    simp [storeBytes, loadBytes, h, hlt, List.getD_eq_getElem, hadd]
  · simp [storeBytes, loadBytes, h]

theorem loadBytes_storeBytes_eq (m : Storage) (off n : Nat) (bs : List Byte)
    (h : bs.length = n) : loadBytes (storeBytes m off bs) off n = bs := by
  subst h
  exact loadBytes_storeBytes_same m off bs

theorem loadBytes_length (m : Storage) (off n : Nat) : (loadBytes m off n).length = n := by
  simp [loadBytes]

theorem loadVec_wellFormed (P : Platform) (m : Storage) (base : Nat) :
    (loadVec P m base).WellFormed P :=
  ⟨loadBytes_length _ _ _, loadBytes_length _ _ _, loadBytes_length _ _ _⟩

/-- Reading a vector member right after writing it gives the written lanes. -/
theorem loadVec_storeVec_same (P : Platform) (m : Storage) (base : Nat)
    (v : simd_float3 (List Byte)) (hv : v.WellFormed P) :
    loadVec P (storeVec P m base v) base = v := by
  obtain ⟨x, y, z⟩ := v
  obtain ⟨hx, hy, hz⟩ := hv
  simp only at hx hy hz
  have e0 : loadBytes (storeVec P m base ⟨x, y, z⟩) (laneOffset P base 0) P.floatSize = x := by
    simp only [storeVec]
    rw [loadBytes_storeBytes_disjoint _ _ _ _ _ (by simp only [laneOffset]; omega),
      loadBytes_storeBytes_disjoint _ _ _ _ _ (by simp only [laneOffset]; omega),
      loadBytes_storeBytes_eq _ _ _ _ hx]
  have e1 : loadBytes (storeVec P m base ⟨x, y, z⟩) (laneOffset P base 1) P.floatSize = y := by
    simp only [storeVec]
    rw [loadBytes_storeBytes_disjoint _ _ _ _ _ (by simp only [laneOffset]; omega),
      loadBytes_storeBytes_eq _ _ _ _ hy]
  have e2 : loadBytes (storeVec P m base ⟨x, y, z⟩) (laneOffset P base 2) P.floatSize = z := by
    simp only [storeVec]
    rw [loadBytes_storeBytes_eq _ _ _ _ hz]
  simp only [loadVec, e0, e1, e2]

/-- Writing a vector member does not change a vector member that lies apart. -/
theorem loadVec_storeVec_disjoint (P : Platform) (m : Storage) (base1 base2 : Nat)
    (v : simd_float3 (List Byte)) (hv : v.WellFormed P)
    (h : base2 + 3 * P.floatSize ≤ base1 ∨ base1 + 3 * P.floatSize ≤ base2) :
    loadVec P (storeVec P m base2 v) base1 = loadVec P m base1 := by
  obtain ⟨x, y, z⟩ := v
  obtain ⟨hx, hy, hz⟩ := hv
  simp only at hx hy hz
  have key : ∀ j : Nat, j < 3 →
      loadBytes (storeVec P m base2 ⟨x, y, z⟩) (laneOffset P base1 j) P.floatSize
        = loadBytes m (laneOffset P base1 j) P.floatSize := by
    intro j hj
    have hjc : j * P.floatSize + P.floatSize ≤ 3 * P.floatSize := by
      calc j * P.floatSize + P.floatSize = (j + 1) * P.floatSize := by ring
        _ ≤ 3 * P.floatSize := Nat.mul_le_mul_right _ hj
    simp only [storeVec]
    rw [loadBytes_storeBytes_disjoint _ _ _ _ _ (by simp only [laneOffset]; omega),
      loadBytes_storeBytes_disjoint _ _ _ _ _ (by simp only [laneOffset]; omega),
      loadBytes_storeBytes_disjoint _ _ _ _ _ (by simp only [laneOffset]; omega)]
  simp only [loadVec, key 0 (by omega), key 1 (by omega), key 2 (by omega)]

/-- Writing back the lanes just read leaves the storage as it was. -/
theorem storeVec_loadVec (P : Platform) (m : Storage) (base : Nat) :
    storeVec P m base (loadVec P m base) = m := by
  simp only [storeVec, loadVec, storeBytes_loadBytes]

/-! ## The record as a value -/

/-- C1: `struct PlaneVertex` is a flat, fixed-size aggregate of exactly two
members, `position` followed by `normal`, each a three-lane `float` vector: it
stores six scalars in all, none of its members is a pointer or has variable
length, and a record value is exactly a choice of its six scalars. -/
theorem PlaneVertex_flat_aggregate (F : Type) :
    PlaneVertex.decl.fields.map Member.name = ["position", "normal"]
    ∧ PlaneVertex.decl.fields.length = 2
    ∧ (∀ f ∈ PlaneVertex.decl.fields, f.type = CType.simd_float3 ∧ f.type.scalarCount = 3)
    ∧ (PlaneVertex.decl.fields.map (fun f => f.type.scalarCount)).sum = 6
    ∧ (∀ f ∈ PlaneVertex.decl.fields,
        f.type.isPointer = false ∧ f.type.isVariableLength = false)
    ∧ (∀ P : Platform, (PlaneVertex.layout P).offsets.length = 2)
    ∧ Function.Bijective (PlaneVertex.component : PlaneVertex F → Fin 6 → F) := by
  refine ⟨by decide, by decide, by decide, by decide, by decide, ?_, ?_⟩
  · intro P
    simp [PlaneVertex.layout, PlaneVertex.decl, structLayout, layoutFrom]
  · rw [Function.bijective_iff_has_inverse]
    refine ⟨PlaneVertex.ofComponents, ?_, ?_⟩
    · intro v
      rfl
    · intro f
      funext i
      fin_cases i <;> rfl

/-! ## The record in storage -/

/-- C2: whenever the size of `simd_float3` is a multiple of its alignment (as C
requires of every object type), the stride of an array of `struct PlaneVertex`
is the sum of the sizes of its two members, element `i` starts at `i` times
that sum, and the aggregate adds no padding before, between or after them. -/
theorem PlaneVertex_stride (P : Platform) (h : P.vector3.align ∣ P.vector3.size) :
    PlaneVertex.decl.memberSizes P = [P.vector3.size, P.vector3.size]
    ∧ PlaneVertex.sizeof P = (PlaneVertex.decl.memberSizes P).sum
    ∧ PlaneVertex.sizeof P = P.vector3.size + P.vector3.size
    ∧ (∀ i : Nat, PlaneVertex.elementOffset P i = i * (P.vector3.size + P.vector3.size))
    ∧ PlaneVertex.positionOffset P = 0
    ∧ PlaneVertex.normalOffset P = PlaneVertex.positionOffset P + P.vector3.size
    ∧ PlaneVertex.sizeof P = PlaneVertex.normalOffset P + P.vector3.size := by
  have hl := PlaneVertex.layout_eq P h
  have hm : PlaneVertex.decl.memberSizes P = [P.vector3.size, P.vector3.size] := by
    simp [StructDecl.memberSizes, PlaneVertex.decl, CType.layout]
  refine ⟨hm, ?_, ?_, ?_, ?_, ?_, ?_⟩
  · simp [hm, PlaneVertex.sizeof, hl]
  · simp [PlaneVertex.sizeof, hl]
  · intro i
    simp [PlaneVertex.elementOffset, PlaneVertex.sizeof, hl]
  · simp [PlaneVertex.positionOffset, hl]
  · simp [PlaneVertex.normalOffset, PlaneVertex.positionOffset, hl]
  · simp [PlaneVertex.sizeof, PlaneVertex.normalOffset, hl]

/-- Witness for C2 on the platform of the source with four-byte `float`:
the stride is 32 = 16 + 16 and element 3 starts at byte 96. -/
theorem PlaneVertex_stride_witness :
    (simdPlatform 4).vector3.align ∣ (simdPlatform 4).vector3.size
    ∧ PlaneVertex.sizeof (simdPlatform 4) = 16 + 16
    ∧ PlaneVertex.elementOffset (simdPlatform 4) 3 = 96 :=
  ⟨by decide,
    (PlaneVertex_stride (simdPlatform 4) (by decide)).2.2.1,
    ((PlaneVertex_stride (simdPlatform 4) (by decide)).2.2.2.1 3)⟩

/-- C3, as stated, fails: with four-byte lanes the normal does not start at
byte 12 and the record is not 24 bytes long; it starts at 16 and the record is
32 bytes long. -/
theorem PlaneVertex_packed_layout_fails :
    ¬ (PlaneVertex.positionOffset (simdPlatform 4) = 0
        ∧ PlaneVertex.normalOffset (simdPlatform 4) = 3 * 4
        ∧ PlaneVertex.sizeof (simdPlatform 4) = 6 * 4)
    ∧ PlaneVertex.normalOffset (simdPlatform 4) = 16
    ∧ PlaneVertex.sizeof (simdPlatform 4) = 32 := by
  decide

/-- C3, amended: with lane size `c`, position is at offset 0 and its three
lanes fill bytes `[0, 3c)`; normal is at offset `4c` and its three lanes fill
`[4c, 7c)`; the record is `8c` bytes long.  The lane-sized gaps `[3c, 4c)` and
`[7c, 8c)` belong to `simd_float3` itself: the aggregate puts normal right
after position and nothing after normal. -/
theorem PlaneVertex_byte_layout (c : Nat) :
    PlaneVertex.positionOffset (simdPlatform c) = 0
    ∧ PlaneVertex.normalOffset (simdPlatform c) = 4 * c
    ∧ PlaneVertex.sizeof (simdPlatform c) = 8 * c
    ∧ (∀ j : Fin 3,
        laneOffset (simdPlatform c) (PlaneVertex.positionOffset (simdPlatform c)) j = j * c
        ∧ laneOffset (simdPlatform c) (PlaneVertex.positionOffset (simdPlatform c)) j + c
            ≤ 3 * c)
    ∧ (∀ j : Fin 3,
        laneOffset (simdPlatform c) (PlaneVertex.normalOffset (simdPlatform c)) j
            = 4 * c + j * c
        ∧ laneOffset (simdPlatform c) (PlaneVertex.normalOffset (simdPlatform c)) j + c
            ≤ 7 * c)
    ∧ PlaneVertex.normalOffset (simdPlatform c)
        = PlaneVertex.positionOffset (simdPlatform c) + (simdPlatform c).vector3.size
    ∧ PlaneVertex.sizeof (simdPlatform c)
        = PlaneVertex.normalOffset (simdPlatform c) + (simdPlatform c).vector3.size := by
  have hl := PlaneVertex.layout_eq (simdPlatform c) (dvd_refl _)
  have hv : (simdPlatform c).vector3.size = 4 * c := rfl
  have hf : (simdPlatform c).floatSize = c := rfl
  have hp : PlaneVertex.positionOffset (simdPlatform c) = 0 := by
    rw [PlaneVertex.positionOffset, hl]
    rfl
  have hn : PlaneVertex.normalOffset (simdPlatform c) = 4 * c := by
    rw [PlaneVertex.normalOffset, hl]
    rfl
  have hs : PlaneVertex.sizeof (simdPlatform c) = 8 * c := by
    rw [PlaneVertex.sizeof, hl]
    show (simdPlatform c).vector3.size + (simdPlatform c).vector3.size = 8 * c
    rw [hv]
    omega
  have hlane : ∀ j : Fin 3, (j : Nat) * c + c ≤ 3 * c := by
    intro j
    have hj : (j : Nat) + 1 ≤ 3 := j.isLt
    calc (j : Nat) * c + c = ((j : Nat) + 1) * c := by ring
      _ ≤ 3 * c := Nat.mul_le_mul_right c hj
  refine ⟨hp, hn, hs, ?_, ?_, ?_, ?_⟩
  · intro j
    have := hlane j
    rw [hp, laneOffset, hf]
    omega
  · intro j
    have := hlane j
    rw [hn, laneOffset, hf]
    omega
  · rw [hp, hn, hv]
    omega
  · rw [hs, hn, hv]
    omega

/-- C10: the header declares the aggregate and no function, so construction
and member access are the only operations on a record, and they round-trip in
storage: after `(struct PlaneVertex){ p, n }` the member `position` reads `p`
and `normal` reads `n`, neither read depends on the value given to the other
member, and constructing a record from the two members read from a record
gives that record back. -/
theorem PlaneVertex_operations_roundtrip (P : Platform) (m0 m : Storage)
    (p n q : simd_float3 (List Byte))
    (hA : P.vector3.align ∣ P.vector3.size) (hS : 3 * P.floatSize ≤ P.vector3.size)
    (hp : p.WellFormed P) (hn : n.WellFormed P) (hq : q.WellFormed P) :
    (PlaneVertex.header.filter HeaderItem.isFunction = []
      ∧ PlaneVertex.header.filter HeaderItem.isStruct
          = [HeaderItem.structDecl PlaneVertex.decl])
    ∧ PlaneVertex.load P (PlaneVertex.init P m0 p n) = ⟨p, n⟩
    ∧ (PlaneVertex.readPosition P (PlaneVertex.init P m0 p n) = p
      ∧ PlaneVertex.readNormal P (PlaneVertex.init P m0 p n) = n)
    ∧ (PlaneVertex.readPosition P (PlaneVertex.init P m0 p n)
          = PlaneVertex.readPosition P (PlaneVertex.init P m0 p q)
      ∧ PlaneVertex.readNormal P (PlaneVertex.init P m0 p n)
          = PlaneVertex.readNormal P (PlaneVertex.init P m0 q n))
    ∧ PlaneVertex.init P m (PlaneVertex.load P m).position (PlaneVertex.load P m).normal = m
    ∧ PlaneVertex.load P
          (PlaneVertex.init P m0 (PlaneVertex.load P m).position (PlaneVertex.load P m).normal)
        = PlaneVertex.load P m := by
  have hl := PlaneVertex.layout_eq P hA
  have hpo : PlaneVertex.positionOffset P = 0 := by
    rw [PlaneVertex.positionOffset, hl]
    rfl
  have hno : PlaneVertex.normalOffset P = P.vector3.size := by
    rw [PlaneVertex.normalOffset, hl]
    rfl
  have hapart : PlaneVertex.normalOffset P + 3 * P.floatSize ≤ PlaneVertex.positionOffset P
      ∨ PlaneVertex.positionOffset P + 3 * P.floatSize ≤ PlaneVertex.normalOffset P := by
    right
    rw [hpo, hno]
    omega
  have rp : ∀ (s : Storage) (a b : simd_float3 (List Byte)), a.WellFormed P → b.WellFormed P →
      PlaneVertex.readPosition P (PlaneVertex.init P s a b) = a := by
    intro s a b ha hb
    simp only [PlaneVertex.readPosition, PlaneVertex.init]
    rw [loadVec_storeVec_disjoint P _ _ _ b hb hapart, loadVec_storeVec_same P _ _ a ha]
  have rn : ∀ (s : Storage) (a b : simd_float3 (List Byte)), b.WellFormed P →
      PlaneVertex.readNormal P (PlaneVertex.init P s a b) = b := by
    intro s a b hb
    simp only [PlaneVertex.readNormal, PlaneVertex.init]
    rw [loadVec_storeVec_same P _ _ b hb]
  have hwp : (PlaneVertex.load P m).position.WellFormed P := loadVec_wellFormed P m _
  have hwn : (PlaneVertex.load P m).normal.WellFormed P := loadVec_wellFormed P m _
  refine ⟨⟨by decide, by decide⟩, ?_, ⟨rp m0 p n hp hn, rn m0 p n hn⟩, ⟨?_, ?_⟩, ?_, ?_⟩
  · simp only [PlaneVertex.load, rp m0 p n hp hn, rn m0 p n hn]
  · rw [rp m0 p n hp hn, rp m0 p q hp hq]
  · rw [rn m0 p n hn, rn m0 q n hn]
  · simp only [PlaneVertex.load, PlaneVertex.init, PlaneVertex.readPosition,
      PlaneVertex.readNormal, storeVec_loadVec]
  · have e1 := rp m0 _ _ hwp hwn
    have e2 := rn m0 (PlaneVertex.load P m).position _ hwn
    simp only [PlaneVertex.load] at e1 e2 ⊢
    rw [e1, e2]

/-- Witness for C10 on the platform of the source with four-byte `float`:
the record built from position (1, 0, 0) and normal (0, 0, 1), given as the
bytes of their lanes, reads back that position. -/
theorem PlaneVertex_operations_roundtrip_witness :
    (simdPlatform 4).vector3.align ∣ (simdPlatform 4).vector3.size
    ∧ 3 * (simdPlatform 4).floatSize ≤ (simdPlatform 4).vector3.size
    ∧ PlaneVertex.readPosition (simdPlatform 4)
        (PlaneVertex.init (simdPlatform 4) (fun _ => 0)
          ⟨[0, 0, 128, 63], [0, 0, 0, 0], [0, 0, 0, 0]⟩
          ⟨[0, 0, 0, 0], [0, 0, 0, 0], [0, 0, 128, 63]⟩)
        = ⟨[0, 0, 128, 63], [0, 0, 0, 0], [0, 0, 0, 0]⟩ :=
  ⟨by decide, by decide,
    (PlaneVertex_operations_roundtrip (simdPlatform 4) (fun _ => 0) (fun _ => 0)
      ⟨[0, 0, 128, 63], [0, 0, 0, 0], [0, 0, 0, 0]⟩
      ⟨[0, 0, 0, 0], [0, 0, 0, 0], [0, 0, 128, 63]⟩
      ⟨[0, 0, 0, 0], [0, 0, 128, 63], [0, 0, 0, 0]⟩
      (by decide) (by decide) ⟨rfl, rfl, rfl⟩ ⟨rfl, rfl, rfl⟩ ⟨rfl, rfl, rfl⟩).2.2.1.1⟩
